import Mathlib

/-!
Verification development for the loan-management engine in app.py.

Modelling conventions:
- Calendar dates are triples (year, month, day); Python date comparison is
  lexicographic, and dateutil relativedelta(months := 1) advances the month by
  one and clamps the day to the length of the target month.
- All monetary values are modelled as exact integer cents.  The source rounds
  every monetary value to 2 decimal places at each step (round(x, 2)); on exact
  cent values this rounding is the identity, recorded here as round2.
- The Supabase tables loans_new, loan_interest_history and payments_new are
  modelled as lists of records inside a Store; equality filters and updates
  become list filter and map.  Row ids for inserted interest entries are drawn
  from a nextEntryId counter.
- get_current_user_id is modelled as an Option Nat parameter threaded to the
  functions that call it.  Queries issued through the user-scoped helper
  get_table_data carry the user filter; queries issued directly on the client
  (as in check_and_add_overdue_interest and update_loan_statuses) do not,
  exactly as in the source.
-/

namespace LoanSys

/-- Calendar date, matching Python datetime.date (year, month, day). -/
structure CalDate where
  year : Nat
  month : Nat
  day : Nat
deriving DecidableEq, Repr

/-- Python date ordering is lexicographic on (year, month, day). -/
def dateLt (a b : CalDate) : Bool :=
  decide (a.year < b.year ∨ (a.year = b.year ∧
    (a.month < b.month ∨ (a.month = b.month ∧ a.day < b.day))))

/-- a is on or before b, used for the ascending due_date ordering of queries. -/
def dateLe (a b : CalDate) : Bool := !(dateLt b a)

/-- Gregorian leap-year rule, as used by the Python calendar underlying dateutil. -/
def isLeap (y : Nat) : Bool := (y % 4 == 0 && y % 100 != 0) || (y % 400 == 0)

/-- Number of days in a month, as used by dateutil when clamping. -/
def daysInMonth (y : Nat) (m : Nat) : Nat :=
  if m == 2 then (if isLeap y then 29 else 28)
  else if m == 4 || m == 6 || m == 9 || m == 11 then 30
  else 31

/-- One-calendar-month advancement: dateutil relativedelta(months := 1).
The month is incremented (rolling the year) and the day is clamped to the
length of the target month. -/
def addOneMonth (d : CalDate) : CalDate :=
  let y2 := if d.month == 12 then d.year + 1 else d.year
  let m2 := if d.month == 12 then 1 else d.month + 1
  { year := y2, month := m2, day := min d.day (daysInMonth y2 m2) }

/-- round(x, 2) from the source: money is modelled in exact cents, so rounding
to two decimal places is the identity. -/
def round2 (x : Int) : Int := x

/-- Round n / k to the nearest integer, ties to even, with k positive:
the rounding performed by Python round on an exact value. -/
def roundHalfEvenDiv (n k : Int) : Int :=
  let q := Int.ediv n k
  let r := Int.emod n k
  if 2 * r < k then q
  else if k < 2 * r then q + 1
  else if Int.emod q 2 == 0 then q else q + 1

/-- calculate_interest: round(principal * INTEREST_RATE, 2) with
INTEREST_RATE = 0.40, on cents: the nearest cent to principal * 40 / 100. -/
def calculate_interest (principal : Int) : Int :=
  roundHalfEvenDiv (principal * 40) 100

/-- get_next_due_date: one month later, None propagated. -/
def get_next_due_date (d : Option CalDate) : Option CalDate :=
  match d with
  | none => none
  | some dd => some (addOneMonth dd)

/-- Row of the loans_new table. -/
structure Loan where
  id : Nat
  user_id : Nat
  client_id : Nat
  loan_date : CalDate
  original_principal : Int
  current_principal : Int
  original_due_date : Option CalDate
  current_due_date : Option CalDate
  status : String
deriving DecidableEq, Repr

/-- Row of the loan_interest_history table.  user_id is optional because the
insert performed by check_and_add_overdue_interest supplies no user_id. -/
structure InterestEntry where
  id : Nat
  loan_id : Nat
  user_id : Option Nat
  due_date : CalDate
  interest_amount : Int
  principal_at_time : Int
  added_date : CalDate
  is_paid : Bool
deriving DecidableEq, Repr

/-- Row of the payments_new table. -/
structure Payment where
  loan_id : Nat
  user_id : Option Nat
  amount : Int
  payment_date : CalDate
  applied_to_interest : Int
  applied_to_principal : Int
  remaining_amount : Int
deriving DecidableEq, Repr

/-- The ledger store: the three tables plus a fresh-id counter for inserted
interest entries. -/
structure Store where
  loans : List Loan
  entries : List InterestEntry
  payments : List Payment
  nextEntryId : Nat
deriving DecidableEq, Repr

/-- get_table_data("loans_new", filters := id) : user-scoped read; returns the
empty list when no user is logged in. -/
def get_table_data_loans (s : Store) (uid : Option Nat) (loanId : Nat) : List Loan :=
  match uid with
  | none => []
  | some u => s.loans.filter (fun l => l.user_id == u && l.id == loanId)

/-- The unscoped query of calculate_total_owed:
loan_interest_history rows with the given loan_id and is_paid = 0. -/
def unpaidRows (s : Store) (loanId : Nat) : List InterestEntry :=
  s.entries.filter (fun e => e.loan_id == loanId && e.is_paid == false)

/-- calculate_total_owed (the second, shadowing definition in the source):
returns (total_owed, current_principal, unpaid_interest), and (0, 0, 0) when
the loan row is not read. -/
def calculate_total_owed (s : Store) (uid : Option Nat) (loanId : Nat) : Int × Int × Int :=
  match get_table_data_loans s uid loanId with
  | [] => (0, 0, 0)
  | loan :: _ =>
    let current_principal := loan.current_principal
    let rows := unpaidRows s loanId
    let unpaid_interest :=
      (rows.filter (fun e => decide ((0 : Int) < e.interest_amount))).foldl
        (fun a e => a + e.interest_amount) 0
    let total_owed := round2 (current_principal + unpaid_interest)
    (total_owed, current_principal, unpaid_interest)

/-- Filter of the unpaid-interest fetch inside process_payment:
eq loan_id, eq user_id, eq is_paid 0, gt interest_amount 0. -/
def paymentFetchPred (u : Nat) (loanId : Nat) (e : InterestEntry) : Bool :=
  e.loan_id == loanId && e.user_id == some u && e.is_paid == false &&
    decide ((0 : Int) < e.interest_amount)

/-- Insertion step for the ascending due_date ordering of the fetch. -/
def insertByDueDate (e : InterestEntry) : List InterestEntry → List InterestEntry
  | [] => [e]
  | x :: xs => if dateLe e.due_date x.due_date then e :: x :: xs else x :: insertByDueDate e xs

/-- order("due_date"): ascending sort by due_date. -/
def sortByDueDate (l : List InterestEntry) : List InterestEntry :=
  l.foldr insertByDueDate []

/-- Update loan_interest_history set is_paid = 1 where id and user_id match. -/
def setEntryPaid (s : Store) (u : Nat) (entryId : Nat) : Store :=
  { s with entries := s.entries.map (fun e =>
      if e.id == entryId && e.user_id == some u then { e with is_paid := true } else e) }

/-- Update loan_interest_history set interest_amount where id and user_id match. -/
def setEntryAmount (s : Store) (u : Nat) (entryId : Nat) (amt : Int) : Store :=
  { s with entries := s.entries.map (fun e =>
      if e.id == entryId && e.user_id == some u then { e with interest_amount := amt } else e) }

/-- Update loans_new set current_principal where id and user_id match. -/
def setLoanPrincipal (s : Store) (u : Nat) (loanId : Nat) (p : Int) : Store :=
  { s with loans := s.loans.map (fun l =>
      if l.id == loanId && l.user_id == u then { l with current_principal := p } else l) }

/-- Update loans_new set status where id and user_id match (payment path). -/
def setLoanStatusScoped (s : Store) (u : Nat) (loanId : Nat) (st : String) : Store :=
  { s with loans := s.loans.map (fun l =>
      if l.id == loanId && l.user_id == u then { l with status := st } else l) }

/-- The PAY INTEREST FIRST loop of process_payment over the fetched entries:
returns the store together with remaining_payment and applied_to_interest. -/
def payInterestLoop (u : Nat) : List InterestEntry → Store → Int → Int → Store × Int × Int
  | [], s, remaining, applied => (s, remaining, applied)
  | e :: rest, s, remaining, applied =>
    if remaining ≤ 0 then (s, remaining, applied)
    else
      let interest_amount := e.interest_amount
      if interest_amount ≤ remaining then
        payInterestLoop u rest (setEntryPaid s u e.id)
          (round2 (remaining - interest_amount)) (applied + interest_amount)
      else
        payInterestLoop u rest (setEntryAmount s u e.id (round2 (interest_amount - remaining)))
          0 (applied + remaining)

/-- process_payment: waterfall allocation of a payment, followed by the
payment record insert and the status write.  Returns the updated store and the
success flag. -/
def process_payment (s : Store) (uid : Option Nat) (loanId : Nat)
    (payment_amount : Int) (payment_date : CalDate) : Store × Bool :=
  match uid with
  | none => (s, false)
  | some u =>
    match s.loans.filter (fun l => l.id == loanId && l.user_id == u) with
    | [] => (s, false)
    | loan :: _ =>
      let current_principal := loan.current_principal
      let interest_data := sortByDueDate (s.entries.filter (paymentFetchPred u loanId))
      let t := payInterestLoop u interest_data s (round2 payment_amount) 0
      let s1 := t.1
      let remaining_payment := t.2.1
      let applied_to_interest := t.2.2
      let applied_to_principal := if 0 < remaining_payment then remaining_payment else 0
      let s2 :=
        if 0 < remaining_payment then
          setLoanPrincipal s1 u loanId
            (max (round2 (current_principal - remaining_payment)) 0)
        else s1
      let s3 := { s2 with payments := s2.payments ++
        [{ loan_id := loanId, user_id := some u, amount := payment_amount,
           payment_date := payment_date, applied_to_interest := applied_to_interest,
           applied_to_principal := applied_to_principal,
           remaining_amount := remaining_payment }] }
      let total_owed := (calculate_total_owed s3 (some u) loanId).1
      let new_status := if total_owed ≤ 0 then "Paid" else "Active"
      (setLoanStatusScoped s3 u loanId new_status, true)

/-- Months elapsed since year 0, used as the loop measure of the accrual walk. -/
def monthIndex (d : CalDate) : Nat := d.year * 12 + (d.month - 1)

/-- Exact number of iterations of the while today > due loop. -/
def walkFuel (today d : CalDate) : Nat := monthIndex today + 1 - monthIndex d

/-- The existence check of the accrual step: any loan_interest_history row with
this loan_id and due_date (no user filter, as in the source). -/
def entryExistsFor (s : Store) (loanId : Nat) (d : CalDate) : Bool :=
  s.entries.any (fun e => e.loan_id == loanId && e.due_date == d)

/-- The insert of the accrual step; note there is no user_id in the inserted
row, exactly as in the source. -/
def insertAccrualEntry (s : Store) (loanId : Nat) (d : CalDate) (cp : Int)
    (today : CalDate) : Store :=
  { s with
    entries := s.entries ++
      [{ id := s.nextEntryId, loan_id := loanId, user_id := none, due_date := d,
         interest_amount := calculate_interest cp, principal_at_time := cp,
         added_date := today, is_paid := false }],
    nextEntryId := s.nextEntryId + 1 }

/-- The while today > current_due_date loop of check_and_add_overdue_interest,
as a function of the exact iteration count. -/
def accrueWalkGo (today : CalDate) (loanId : Nat) (cp : Int) :
    Nat → Store → CalDate → Store × CalDate
  | 0, s, d => (s, d)
  | fuel + 1, s, d =>
    if dateLt d today then
      let s2 := if entryExistsFor s loanId d then s else insertAccrualEntry s loanId d cp today
      accrueWalkGo today loanId cp fuel s2 (addOneMonth d)
    else (s, d)

/-- The date component of the accrual walk, independent of the store. -/
def walkFinalGo (today : CalDate) : Nat → CalDate → CalDate
  | 0, d => d
  | fuel + 1, d => if dateLt d today then walkFinalGo today fuel (addOneMonth d) else d

/-- Final working due date of the accrual walk started at d. -/
def walkFinal (today d : CalDate) : CalDate := walkFinalGo today (walkFuel today d) d

/-- Update loans_new set current_due_date, status where id matches.
No user filter: the source update in check_and_add_overdue_interest is
scoped by id only. -/
def setLoanDueStatus (s : Store) (loanId : Nat) (dd : Option CalDate) (st : String) : Store :=
  { s with loans := s.loans.map (fun l =>
      if l.id == loanId then { l with current_due_date := dd, status := st } else l) }

/-- Body of the per-loan accrual: walk all missed due dates, then persist the
final due date and unconditionally write status Overdue. -/
def accrueLoan (today : CalDate) (s : Store) (loan : Loan) : Store :=
  match loan.current_due_date with
  | none => s
  | some d0 =>
    let res := accrueWalkGo today loan.id loan.current_principal (walkFuel today d0) s d0
    setLoanDueStatus res.1 loan.id (some res.2) "Overdue"

/-- check_and_add_overdue_interest: iterate over the snapshot of loans with
status not equal to Paid (no user filter) and accrue each. -/
def check_and_add_overdue_interest (s : Store) (today : CalDate) : Store :=
  (s.loans.filter (fun l => !(l.status == "Paid"))).foldl (accrueLoan today) s

/-- The per-loan body of the status loop of update_loan_statuses. -/
def statusFor (s : Store) (uid : Option Nat) (today : CalDate) (loan : Loan) : String :=
  let total_owed := (calculate_total_owed s uid loan.id).1
  if total_owed ≤ 0 then "Paid"
  else
    match loan.current_due_date with
    | some dd => if dateLt dd today then "Overdue" else "Partial"
    | none => "Partial"

/-- Update loans_new set status where id matches (no user filter, as in
update_loan_statuses). -/
def setLoanStatusUnscoped (s : Store) (loanId : Nat) (st : String) : Store :=
  { s with loans := s.loans.map (fun l =>
      if l.id == loanId then { l with status := st } else l) }

/-- update_loan_statuses: run accrual, then recompute and write the status of
every loan in the store (the snapshot has no user and no status filter). -/
def update_loan_statuses (s : Store) (uid : Option Nat) (today : CalDate) : Store :=
  let s1 := check_and_add_overdue_interest s today
  s1.loans.foldl (fun acc loan =>
    setLoanStatusUnscoped acc loan.id (statusFor acc uid today loan)) s1

/-- Sum of interest_amount over the unpaid interest entries of a loan, in the
sense of the specification glossary: is_paid false and interest_amount > 0. -/
def specUnpaidSum (s : Store) (loanId : Nat) : Int :=
  ((s.entries.filter (fun e => e.loan_id == loanId && e.is_paid == false &&
      decide ((0 : Int) < e.interest_amount))).map
    (fun e => e.interest_amount)).sum

/-- Net effect of one accrual pass on a single loan row. -/
def charAc (today : CalDate) (y : Loan) : Loan :=
  if y.status == "Paid" then y
  else
    match y.current_due_date with
    | none => y
    | some d => { y with current_due_date := some (walkFinal today d), status := "Overdue" }

/-- Well-formed month field (1 to 12). -/
def WfMonth (d : CalDate) : Prop := 1 ≤ d.month ∧ d.month ≤ 12

instance (d : CalDate) : Decidable (WfMonth d) := by
  unfold WfMonth; infer_instance

/-! ### Generic list lemmas -/

theorem listMapId {α : Type} (f : α → α) :
    ∀ l : List α, (∀ x ∈ l, f x = x) → l.map f = l := by
  intro l
  induction l with
  | nil => intro _; rfl
  | cons a t ih =>
    intro h
    simp only [List.map_cons]
    rw [h a (List.mem_cons_self a t), ih (fun x hx => h x (List.mem_cons_of_mem a hx))]

theorem foldlFix {α β : Type} (f : α → β → α) (a : α) :
    ∀ l : List β, (∀ x ∈ l, f a x = a) → l.foldl f a = a := by
  intro l
  induction l with
  | nil => intro _; rfl
  | cons b t ih =>
    intro h
    simp only [List.foldl_cons]
    rw [h b (List.mem_cons_self b t)]
    exact ih (fun x hx => h x (List.mem_cons_of_mem b hx))

theorem foldlMapPointwise {α β : Type} (F : β → α → α) :
    ∀ (xs : List β) (l0 : List α),
      xs.foldl (fun L x => L.map (F x)) l0 =
        l0.map (fun y => xs.foldl (fun z x => F x z) y) := by
  intro xs
  induction xs with
  | nil =>
    intro l0
    simp only [List.foldl_nil]
    exact (listMapId _ l0 (fun x _ => rfl)).symm
  | cons b t ih =>
    intro l0
    simp only [List.foldl_cons]
    rw [ih (l0.map (F b)), List.map_map]
    rfl

theorem filterMapPred {α : Type} (g : α → α) (p : α → Bool)
    (h : ∀ a, p (g a) = p a) :
    ∀ l : List α, (l.map g).filter p = (l.filter p).map g := by
  intro l
  induction l with
  | nil => rfl
  | cons a t ih =>
    cases hpa : p a <;>
      simp [List.map_cons, List.filter_cons, h a, hpa, ih]

theorem filterFilterB {α : Type} (p q : α → Bool) :
    ∀ l : List α, (l.filter q).filter p = l.filter (fun a => q a && p a) := by
  intro l
  induction l with
  | nil => rfl
  | cons a t ih =>
    cases hq : q a <;> cases hp : p a <;>
      simp [List.filter_cons, hq, hp, ih]

/-! ### Folds of id-targeted row updates -/

theorem foldlTargetedSkip (T : Loan → Loan → Loan) :
    ∀ (xs : List Loan) (y : Loan), (∀ x ∈ xs, y.id ≠ x.id) →
      xs.foldl (fun z x => if z.id == x.id then T x z else z) y = y := by
  intro xs
  induction xs with
  | nil => intro y _; rfl
  | cons x t ih =>
    intro y h
    have hne : (y.id == x.id) = false :=
      beq_eq_false_iff_ne.mpr (h x (List.mem_cons_self x t))
    simp only [List.foldl_cons, hne, Bool.false_eq_true, if_false]
    exact ih y (fun z hz => h z (List.mem_cons_of_mem x hz))

theorem foldlTargetedHit (T : Loan → Loan → Loan)
    (hTid : ∀ x z, (T x z).id = z.id) (as bs : List Loan) (y : Loan)
    (ha : ∀ x ∈ as, y.id ≠ x.id) (hb : ∀ x ∈ bs, y.id ≠ x.id) :
    (as ++ y :: bs).foldl (fun z x => if z.id == x.id then T x z else z) y = T y y := by
  rw [List.foldl_append, foldlTargetedSkip T as y ha]
  simp only [List.foldl_cons, beq_self_eq_true, if_true]
  refine foldlTargetedSkip T bs (T y y) ?_
  intro x hx
  rw [hTid y y]
  exact hb x hx

/-! ### Date lemmas -/

theorem dateLt_iff (a b : CalDate) :
    dateLt a b = true ↔ (a.year < b.year ∨ (a.year = b.year ∧
      (a.month < b.month ∨ (a.month = b.month ∧ a.day < b.day)))) := by
  simp [dateLt]

theorem monthIndex_le_of_dateLt (a b : CalDate) (ha : WfMonth a) (hb : WfMonth b)
    (h : dateLt a b = true) : monthIndex a ≤ monthIndex b := by
  rcases (dateLt_iff a b).mp h with hy | ⟨hy, hm | ⟨hm, _⟩⟩ <;>
    · unfold monthIndex
      unfold WfMonth at ha hb
      omega

theorem addOneMonth_fields (d : CalDate) (h : WfMonth d) :
    WfMonth (addOneMonth d) ∧ monthIndex (addOneMonth d) = monthIndex d + 1 := by
  unfold WfMonth at h
  by_cases h12 : d.month = 12
  · simp [addOneMonth, monthIndex, h12, WfMonth]
    omega
  · have hb : (d.month == 12) = false := beq_eq_false_iff_ne.mpr h12
    simp [addOneMonth, monthIndex, hb, WfMonth]
    omega

/-! ### Accrual walk lemmas -/

theorem accrueWalkGo_loans (today : CalDate) (i : Nat) (cp : Int) :
    ∀ (fuel : Nat) (s : Store) (d : CalDate),
      (accrueWalkGo today i cp fuel s d).1.loans = s.loans := by
  intro fuel
  induction fuel with
  | zero => intro s d; rfl
  | succ n ih =>
    intro s d
    cases hlt : dateLt d today with
    | false => simp [accrueWalkGo, hlt]
    | true =>
      simp only [accrueWalkGo, hlt, if_true]
      rw [ih]
      cases hex : entryExistsFor s i d <;> simp [insertAccrualEntry]

theorem accrueWalkGo_snd (today : CalDate) (i : Nat) (cp : Int) :
    ∀ (fuel : Nat) (s : Store) (d : CalDate),
      (accrueWalkGo today i cp fuel s d).2 = walkFinalGo today fuel d := by
  intro fuel
  induction fuel with
  | zero => intro s d; rfl
  | succ n ih =>
    intro s d
    cases hlt : dateLt d today with
    | false => simp [accrueWalkGo, walkFinalGo, hlt]
    | true =>
      simp only [accrueWalkGo, walkFinalGo, hlt, if_true]
      exact ih _ _

theorem accrueWalkGo_stop (today : CalDate) (i : Nat) (cp : Int)
    (d : CalDate) (h : dateLt d today = false) :
    ∀ (fuel : Nat) (s : Store), accrueWalkGo today i cp fuel s d = (s, d) := by
  intro fuel s
  cases fuel with
  | zero => rfl
  | succ n => simp [accrueWalkGo, h]

theorem walkFinalGo_stop (today d : CalDate) (h : dateLt d today = false) :
    ∀ fuel : Nat, walkFinalGo today fuel d = d := by
  intro fuel
  cases fuel with
  | zero => rfl
  | succ n => simp [walkFinalGo, h]

theorem walkFinalGo_not_lt (today : CalDate) (ht : WfMonth today) :
    ∀ (fuel : Nat) (d : CalDate), WfMonth d →
      (dateLt d today = true → monthIndex today + 1 ≤ monthIndex d + fuel) →
      dateLt (walkFinalGo today fuel d) today = false := by
  intro fuel
  induction fuel with
  | zero =>
    intro d hd hbound
    cases hlt : dateLt d today with
    | false => simpa [walkFinalGo] using hlt
    | true =>
      have h1 := hbound hlt
      have h2 := monthIndex_le_of_dateLt d today hd ht hlt
      omega
  | succ n ih =>
    intro d hd hbound
    cases hlt : dateLt d today with
    | false => simp [walkFinalGo, hlt]
    | true =>
      simp only [walkFinalGo, hlt, if_true]
      obtain ⟨hwf2, hidx2⟩ := addOneMonth_fields d hd
      refine ih (addOneMonth d) hwf2 ?_
      intro _
      have := hbound hlt
      omega

theorem walkFinal_not_lt (today d : CalDate) (hd : WfMonth d) (ht : WfMonth today) :
    dateLt (walkFinal today d) today = false := by
  unfold walkFinal walkFuel
  refine walkFinalGo_not_lt today ht _ d hd ?_
  intro hlt
  have := monthIndex_le_of_dateLt d today hd ht hlt
  omega

theorem walkFinal_stop (today d : CalDate) (h : dateLt d today = false) :
    walkFinal today d = d :=
  walkFinalGo_stop today d h _

/-! ### Characterization of the accrual pass on the loans table -/

/-- Effect of the per-loan accrual update of snapshot loan x on a row z whose
id matches. -/
def stepAcApply (today : CalDate) (x z : Loan) : Loan :=
  match x.current_due_date with
  | none => z
  | some d => { z with current_due_date := some (walkFinal today d), status := "Overdue" }

theorem stepAcApply_id (today : CalDate) (x z : Loan) :
    (stepAcApply today x z).id = z.id := by
  unfold stepAcApply
  cases x.current_due_date <;> rfl

theorem listMapCongr {α β : Type} (f g : α → β) :
    ∀ l : List α, (∀ x ∈ l, f x = g x) → l.map f = l.map g := by
  intro l
  induction l with
  | nil => intro _; rfl
  | cons a t ih =>
    intro h
    simp only [List.map_cons]
    rw [h a (List.mem_cons_self a t), ih (fun x hx => h x (List.mem_cons_of_mem a hx))]

theorem accrueLoan_loans (today : CalDate) (acc : Store) (x : Loan) :
    (accrueLoan today acc x).loans =
      acc.loans.map (fun z => if z.id == x.id then stepAcApply today x z else z) := by
  cases hdd : x.current_due_date with
  | none =>
    simp only [accrueLoan, hdd]
    refine (listMapId _ _ ?_).symm
    intro z _
    simp [stepAcApply, hdd]
  | some d0 =>
    simp only [accrueLoan, hdd, setLoanDueStatus]
    rw [accrueWalkGo_loans, accrueWalkGo_snd]
    refine listMapCongr _ _ _ ?_
    intro z _
    simp [stepAcApply, hdd, walkFinal]

theorem check_loans_foldl (today : CalDate) :
    ∀ (xs : List Loan) (acc : Store),
      (xs.foldl (accrueLoan today) acc).loans =
        xs.foldl (fun L x =>
          L.map (fun z => if z.id == x.id then stepAcApply today x z else z)) acc.loans := by
  intro xs
  induction xs with
  | nil => intro acc; rfl
  | cons x t ih =>
    intro acc
    simp only [List.foldl_cons]
    rw [ih, accrueLoan_loans]

theorem uniqueId {l : List Loan} (hN : (l.map Loan.id).Nodup) {x y : Loan}
    (hx : x ∈ l) (hy : y ∈ l) (h : x.id = y.id) : x = y :=
  List.inj_on_of_nodup_map hN hx hy h

theorem memSplitNoId {l : List Loan} (hN : (l.map Loan.id).Nodup) {y : Loan}
    (hy : y ∈ l) :
    ∃ as bs, l = as ++ y :: bs ∧ (∀ x ∈ as, y.id ≠ x.id) ∧ (∀ x ∈ bs, y.id ≠ x.id) := by
  obtain ⟨as, bs, rfl⟩ := List.append_of_mem hy
  refine ⟨as, bs, rfl, ?_, ?_⟩
  · intro x hx heq
    rw [List.map_append, List.map_cons, List.nodup_append] at hN
    exact hN.2.2 (heq ▸ List.mem_map_of_mem Loan.id hx) (List.mem_cons_self _ _)
  · intro x hx heq
    rw [List.map_append, List.map_cons, List.nodup_append] at hN
    exact (List.nodup_cons.mp hN.2.1).1 (heq ▸ List.mem_map_of_mem Loan.id hx)

theorem accrual_pointwise (today : CalDate) (s : Store)
    (hN : (s.loans.map Loan.id).Nodup) (y : Loan) (hy : y ∈ s.loans) :
    (s.loans.filter (fun l => !(l.status == "Paid"))).foldl
      (fun z x => if z.id == x.id then stepAcApply today x z else z) y = charAc today y := by
  by_cases hst : y.status = "Paid"
  · rw [foldlTargetedSkip]
    · simp [charAc, hst]
    · intro x hx heq
      have hx2 := List.mem_filter.mp hx
      have : x = y := uniqueId hN hx2.1 hy heq.symm
      subst this
      rw [hst] at hx2
      simp at hx2
  · have hyF : y ∈ s.loans.filter (fun l => !(l.status == "Paid")) := by
      refine List.mem_filter.mpr ⟨hy, ?_⟩
      simp [hst]
    have hNF : ((s.loans.filter (fun l => !(l.status == "Paid"))).map Loan.id).Nodup :=
      List.Sublist.nodup (List.Sublist.map Loan.id (List.filter_sublist s.loans)) hN
    obtain ⟨as, bs, heq, ha, hb⟩ := memSplitNoId hNF hyF
    rw [heq, foldlTargetedHit (stepAcApply today) (stepAcApply_id today) as bs y ha hb]
    simp only [charAc, beq_eq_false_iff_ne, stepAcApply]
    have : (y.status == "Paid") = false := beq_eq_false_iff_ne.mpr hst
    rw [this]
    simp

theorem charAc_id (today : CalDate) (y : Loan) : (charAc today y).id = y.id := by
  unfold charAc
  split
  · rfl
  · cases y.current_due_date <;> rfl

theorem charAc_user (today : CalDate) (y : Loan) : (charAc today y).user_id = y.user_id := by
  unfold charAc
  split
  · rfl
  · cases y.current_due_date <;> rfl

theorem charAc_principal (today : CalDate) (y : Loan) :
    (charAc today y).current_principal = y.current_principal := by
  unfold charAc
  split
  · rfl
  · cases y.current_due_date <;> rfl

/-- The accrual pass acts on the loans table as the pointwise map charAc,
provided loan ids are distinct (primary keys). -/
theorem accrual_loans_char (s : Store) (today : CalDate)
    (hN : (s.loans.map Loan.id).Nodup) :
    (check_and_add_overdue_interest s today).loans = s.loans.map (charAc today) := by
  unfold check_and_add_overdue_interest
  rw [check_loans_foldl, foldlMapPointwise]
  exact listMapCongr _ _ _ (fun y hy => accrual_pointwise today s hN y hy)

/-! ### Reads are insensitive to maps that keep id, user_id, current_principal -/

/-- Row transformations that preserve the fields read by calculate_total_owed. -/
def GPres (g : Loan → Loan) : Prop :=
  ∀ y : Loan, (g y).id = y.id ∧ (g y).user_id = y.user_id ∧
    (g y).current_principal = y.current_principal

theorem get_table_data_loans_map (s : Store) (g : Loan → Loan) (hg : GPres g)
    (uid : Option Nat) (i : Nat) :
    get_table_data_loans { s with loans := s.loans.map g } uid i =
      (get_table_data_loans s uid i).map g := by
  cases uid with
  | none => rfl
  | some u =>
    show (s.loans.map g).filter _ = _
    rw [filterMapPred g _ ?_ s.loans]
    · rfl
    · intro a
      simp [(hg a).1, (hg a).2.1]

theorem calculate_total_owed_map (s : Store) (g : Loan → Loan) (hg : GPres g)
    (uid : Option Nat) (i : Nat) :
    calculate_total_owed { s with loans := s.loans.map g } uid i =
      calculate_total_owed s uid i := by
  unfold calculate_total_owed
  rw [get_table_data_loans_map s g hg uid i]
  cases h : get_table_data_loans s uid i with
  | nil => rfl
  | cons a t =>
    simp only [List.map_cons]
    have hcp : (g a).current_principal = a.current_principal := (hg a).2.2
    simp only [hcp]
    rfl

theorem statusFor_map (s : Store) (g : Loan → Loan) (hg : GPres g)
    (uid : Option Nat) (today : CalDate) (x : Loan) :
    statusFor { s with loans := s.loans.map g } uid today x = statusFor s uid today x := by
  unfold statusFor
  rw [calculate_total_owed_map s g hg]

/-! ### Characterization of the status loop of update_loan_statuses -/

theorem statusFold_char (s1 : Store) (uid : Option Nat) (today : CalDate) :
    ∀ (xs : List Loan) (g : Loan → Loan), GPres g →
      xs.foldl (fun acc loan =>
          setLoanStatusUnscoped acc loan.id (statusFor acc uid today loan))
        { s1 with loans := s1.loans.map g } =
      { s1 with loans := s1.loans.map (fun y =>
          xs.foldl (fun z x =>
            if z.id == x.id then { z with status := statusFor s1 uid today x } else z)
            (g y)) } := by
  intro xs
  induction xs with
  | nil =>
    intro g _
    rfl
  | cons x t ih =>
    intro g hg
    simp only [List.foldl_cons]
    have hst : statusFor { s1 with loans := s1.loans.map g } uid today x =
        statusFor s1 uid today x := statusFor_map s1 g hg uid today x
    have hstep : setLoanStatusUnscoped { s1 with loans := s1.loans.map g } x.id
        (statusFor { s1 with loans := s1.loans.map g } uid today x) =
        { s1 with loans := s1.loans.map (fun y =>
          if (g y).id == x.id then { g y with status := statusFor s1 uid today x }
          else g y) } := by
      rw [hst]
      show { s1 with loans := (s1.loans.map g).map _ } = _
      rw [List.map_map]
      rfl
    rw [hstep]
    have hg2 : GPres (fun y =>
        if (g y).id == x.id then { g y with status := statusFor s1 uid today x }
        else g y) := by
      intro y
      cases hb : (g y).id == x.id
      · simp only [hb, Bool.false_eq_true, if_false]
        exact ⟨(hg y).1, (hg y).2.1, (hg y).2.2⟩
      · simp only [hb, if_true]
        exact ⟨(hg y).1, (hg y).2.1, (hg y).2.2⟩
    rw [ih _ hg2]

/-- The batch status loop rewrites every loan row with the status computed by
statusFor on the post-accrual store, provided loan ids are distinct. -/
theorem update_loan_statuses_char (s : Store) (uid : Option Nat) (today : CalDate)
    (hN1 : ((check_and_add_overdue_interest s today).loans.map Loan.id).Nodup) :
    update_loan_statuses s uid today =
      { check_and_add_overdue_interest s today with
        loans := (check_and_add_overdue_interest s today).loans.map (fun y =>
          { y with status := statusFor (check_and_add_overdue_interest s today) uid today y }) } := by
  set s1 : Store := check_and_add_overdue_interest s today with hs1
  have hmapid : s1.loans.map (fun y => y) = s1.loans := listMapId _ _ (fun x _ => rfl)
  have key := statusFold_char s1 uid today s1.loans (fun y => y) (fun y => ⟨rfl, rfl, rfl⟩)
  simp only [hmapid] at key
  have key2 : update_loan_statuses s uid today =
      { s1 with loans := s1.loans.map (fun y =>
        s1.loans.foldl (fun z x =>
          if z.id == x.id then { z with status := statusFor s1 uid today x } else z) y) } :=
    key
  rw [key2]
  congr 1
  refine listMapCongr _ _ _ ?_
  intro y hy
  obtain ⟨as, bs, heq, ha, hb⟩ := memSplitNoId hN1 hy
  rw [heq]
  exact foldlTargetedHit (fun x z => { z with status := statusFor s1 uid today x })
    (fun x z => rfl) as bs y ha hb

/-! ### Identity updates and the idempotence invariant -/

theorem loanEta2 (z : Loan) (dd : Option CalDate) (st : String)
    (h1 : z.current_due_date = dd) (h2 : z.status = st) :
    ({ z with current_due_date := dd, status := st } : Loan) = z := by
  cases z
  simp_all

theorem setLoanDueStatus_fix (s : Store) (i : Nat) (dd : Option CalDate) (st : String)
    (h : ∀ l ∈ s.loans, l.id = i → l.current_due_date = dd ∧ l.status = st) :
    setLoanDueStatus s i dd st = s := by
  unfold setLoanDueStatus
  rw [listMapId]
  · intro l hl
    by_cases hid : l.id = i
    · obtain ⟨h1, h2⟩ := h l hl hid
      simp [beq_iff_eq.mpr hid, loanEta2 l dd st h1 h2]
    · simp [beq_eq_false_iff_ne.mpr hid]

/-- After one accrual pass, every loan row that is not Paid either has no due
date or carries a due date that is not strictly before today, with status
Overdue. -/
theorem accrual_result_nonpaid (s : Store) (today : CalDate)
    (hN : (s.loans.map Loan.id).Nodup) (hw : WfMonth today)
    (hD : ∀ l ∈ s.loans, ∀ d, l.current_due_date = some d → WfMonth d) :
    ∀ row ∈ (check_and_add_overdue_interest s today).loans, row.status ≠ "Paid" →
      row.current_due_date = none ∨
        (∃ d, row.current_due_date = some d ∧ dateLt d today = false ∧
          row.status = "Overdue") := by
  intro row hrow hnp
  rw [accrual_loans_char s today hN] at hrow
  obtain ⟨y, hy, rfl⟩ := List.mem_map.mp hrow
  by_cases hst : y.status = "Paid"
  · exfalso
    apply hnp
    simp [charAc, hst]
  · cases hdd : y.current_due_date with
    | none =>
      left
      simp [charAc, beq_eq_false_iff_ne.mpr hst, hdd]
    | some d =>
      right
      refine ⟨walkFinal today d, ?_, ?_, ?_⟩
      · simp [charAc, beq_eq_false_iff_ne.mpr hst, hdd]
      · exact walkFinal_not_lt today d (hD y hy d hdd) hw
      · simp [charAc, beq_eq_false_iff_ne.mpr hst, hdd]

/-! ### Payment-loop lemmas -/

theorem foldlAddInterest :
    ∀ (rows : List InterestEntry) (a : Int),
      rows.foldl (fun acc e => acc + e.interest_amount) a =
        a + (rows.map (fun e => e.interest_amount)).sum := by
  intro rows
  induction rows with
  | nil => intro a; simp
  | cons e t ih =>
    intro a
    rw [List.foldl_cons, ih, List.map_cons, List.sum_cons]
    ring

theorem payInterestLoop_loans (u : Nat) :
    ∀ (es : List InterestEntry) (s : Store) (r a : Int),
      (payInterestLoop u es s r a).1.loans = s.loans := by
  intro es
  induction es with
  | nil => intro s r a; rfl
  | cons e t ih =>
    intro s r a
    by_cases hr : r ≤ 0
    · simp [payInterestLoop, hr]
    · by_cases hf : e.interest_amount ≤ r
      · simp only [payInterestLoop, if_neg hr, if_pos hf]
        rw [ih]
        rfl
      · simp only [payInterestLoop, if_neg hr, if_neg hf]
        rw [ih]
        rfl

theorem payInterestLoop_payments (u : Nat) :
    ∀ (es : List InterestEntry) (s : Store) (r a : Int),
      (payInterestLoop u es s r a).1.payments = s.payments := by
  intro es
  induction es with
  | nil => intro s r a; rfl
  | cons e t ih =>
    intro s r a
    by_cases hr : r ≤ 0
    · simp [payInterestLoop, hr]
    · by_cases hf : e.interest_amount ≤ r
      · simp only [payInterestLoop, if_neg hr, if_pos hf]
        rw [ih]
        rfl
      · simp only [payInterestLoop, if_neg hr, if_neg hf]
        rw [ih]
        rfl

theorem payInterestLoop_conserve (u : Nat) :
    ∀ (es : List InterestEntry) (s : Store) (r a : Int),
      (payInterestLoop u es s r a).2.1 + (payInterestLoop u es s r a).2.2 = r + a := by
  intro es
  induction es with
  | nil => intro s r a; rfl
  | cons e t ih =>
    intro s r a
    by_cases hr : r ≤ 0
    · simp [payInterestLoop, hr]
    · by_cases hf : e.interest_amount ≤ r
      · simp only [payInterestLoop, if_neg hr, if_pos hf, round2]
        rw [ih]
        ring
      · simp only [payInterestLoop, if_neg hr, if_neg hf, round2]
        rw [ih]
        ring

theorem payInterestLoop_nonneg (u : Nat) :
    ∀ (es : List InterestEntry) (s : Store) (r a : Int), 0 ≤ r →
      0 ≤ (payInterestLoop u es s r a).2.1 := by
  intro es
  induction es with
  | nil => intro s r a hr; exact hr
  | cons e t ih =>
    intro s r a hr
    by_cases hr0 : r ≤ 0
    · simp only [payInterestLoop, if_pos hr0]
      exact hr
    · by_cases hf : e.interest_amount ≤ r
      · simp only [payInterestLoop, if_neg hr0, if_pos hf, round2]
        exact ih _ _ _ (by omega)
      · simp only [payInterestLoop, if_neg hr0, if_neg hf, round2]
        exact ih _ _ _ (by omega)

/-! ### Month advancement, iterated -/

/-- k successive one-month advances of a due date, as performed by repeated
get_next_due_date / accrual steps. -/
def advanceMonths : Nat → CalDate → CalDate
  | 0, d => d
  | k + 1, d => advanceMonths k (addOneMonth d)

theorem daysInMonth_ge28 (y m : Nat) : 28 ≤ daysInMonth y m := by
  unfold daysInMonth
  split
  · split <;> omega
  · split <;> omega

theorem calDateExt (a b : CalDate) (h1 : a.year = b.year) (h2 : a.month = b.month)
    (h3 : a.day = b.day) : a = b := by
  cases a
  cases b
  simp_all

theorem addOneMonth_day_small (d : CalDate) (hday : d.day ≤ 28) :
    (addOneMonth d).day = d.day := by
  unfold addOneMonth
  exact Nat.min_eq_left (hday.trans (daysInMonth_ge28 _ _))

theorem advanceMonths_idx :
    ∀ (k : Nat) (d : CalDate), WfMonth d → d.day ≤ 28 →
      advanceMonths k d =
        ⟨(monthIndex d + k) / 12, (monthIndex d + k) % 12 + 1, d.day⟩ := by
  intro k
  induction k with
  | zero =>
    intro d hw hday
    refine (calDateExt _ _ ?_ ?_ ?_).symm
    · unfold WfMonth at hw
      show (monthIndex d + 0) / 12 = d.year
      unfold monthIndex
      omega
    · unfold WfMonth at hw
      show (monthIndex d + 0) % 12 + 1 = d.month
      unfold monthIndex
      omega
    · rfl
  | succ n ih =>
    intro d hw hday
    obtain ⟨hw2, hidx2⟩ := addOneMonth_fields d hw
    have hday2 : (addOneMonth d).day = d.day := addOneMonth_day_small d hday
    show advanceMonths n (addOneMonth d) = _
    rw [ih (addOneMonth d) hw2 (hday2 ▸ hday)]
    refine calDateExt _ _ ?_ ?_ ?_
    · rw [hidx2]
      show (monthIndex d + 1 + n) / 12 = (monthIndex d + (n + 1)) / 12
      omega
    · rw [hidx2]
      show (monthIndex d + 1 + n) % 12 + 1 = (monthIndex d + (n + 1)) % 12 + 1
      omega
    · exact hday2

/-! ### Claim C8 -/

/-- C8 counterexample: the claim asserts that a due date on the 31st clamps to
a shorter month and comes back to the 31st afterwards, with no drift over 12
advances.  The code (addOneMonth, the translation of get_next_due_date via
dateutil relativedelta) is lossy: 2025-01-31 advances to 2025-02-28, the next
advance yields 2025-03-28 (not 03-31), and after 12 advances the date is
2026-01-28, not 2026-01-31. -/
theorem c8_counterexample :
    addOneMonth ⟨2025, 1, 31⟩ = ⟨2025, 2, 28⟩ ∧
    addOneMonth (addOneMonth ⟨2025, 1, 31⟩) = ⟨2025, 3, 28⟩ ∧
    advanceMonths 12 ⟨2025, 1, 31⟩ = ⟨2026, 1, 28⟩ := by
  decide

/-- C8 (amended): a single advance preserves the day of month whenever the
target month is long enough and clamps to the last day otherwise, but the
clamping is permanent, so the day only provably survives 12 successive
advances when it is at most 28: then 12 advances of addOneMonth return
exactly the same month and day, one year later (no drift). -/
theorem c8_amended (d : CalDate) (hw : WfMonth d) (hday : d.day ≤ 28) :
    advanceMonths 12 d = ⟨d.year + 1, d.month, d.day⟩ := by
  rw [advanceMonths_idx 12 d hw hday]
  unfold WfMonth at hw
  refine calDateExt _ _ ?_ ?_ ?_
  · show (monthIndex d + 12) / 12 = d.year + 1
    unfold monthIndex
    omega
  · show (monthIndex d + 12) % 12 + 1 = d.month
    unfold monthIndex
    omega
  · rfl

/-- C8 witness: the amended theorem applied at 2025-01-15. -/
theorem c8_witness :
    WfMonth ⟨2025, 1, 15⟩ ∧ (15 : Nat) ≤ 28 ∧
      advanceMonths 12 ⟨2025, 1, 15⟩ = ⟨2026, 1, 15⟩ :=
  ⟨by decide, by decide, c8_amended ⟨2025, 1, 15⟩ (by decide) (by decide)⟩

/-! ### Claim C10 -/

/-- Concrete store for the C10 counterexample: one loan, id 7, owned by user 2,
with positive principal and unpaid interest, status Partial. -/
def c10Store : Store :=
  { loans := [{ id := 7, user_id := 2, client_id := 2, loan_date := ⟨2025, 1, 1⟩,
                original_principal := 10000, current_principal := 10000,
                original_due_date := some ⟨2030, 1, 15⟩,
                current_due_date := some ⟨2030, 1, 15⟩, status := "Partial" }],
    entries := [{ id := 1, loan_id := 7, user_id := some 2, due_date := ⟨2030, 1, 15⟩,
                  interest_amount := 4000, principal_at_time := 10000,
                  added_date := ⟨2025, 1, 1⟩, is_paid := false }],
    payments := [], nextEntryId := 2 }

/-- C10 counterexample: for a loan row that cannot be read (here: owned by a
different user than the caller), calculate_total_owed returns the default
(0, 0, 0) instead of surfacing an error, and the batch refresh running as
user 1 then marks the loan Paid although it carries a positive balance. -/
theorem c10_counterexample :
    calculate_total_owed c10Store (some 1) 7 = (0, 0, 0) ∧
    c10Store.loans.map (fun l => (l.id, l.user_id, l.current_principal, l.status)) =
      [(7, 2, 10000, "Partial")] ∧
    (update_loan_statuses c10Store (some 1) ⟨2026, 2, 3⟩).loans.map
        (fun l => (l.id, l.status)) = [(7, "Paid")] := by
  decide

/-- C10 (amended): whenever the scoped read of the loan row yields nothing
(loan absent, owned by another user, or no authenticated user),
calculate_total_owed silently returns the default (0, 0, 0); the failure is
converted into a zero result instead of being surfaced. -/
theorem c10_amended (s : Store) (uid : Option Nat) (i : Nat)
    (h : get_table_data_loans s uid i = []) :
    calculate_total_owed s uid i = (0, 0, 0) := by
  unfold calculate_total_owed
  rw [h]

/-- C10 witness: the amended theorem applied to the concrete store, reading as
user 1 a loan owned by user 2. -/
theorem c10_witness :
    get_table_data_loans c10Store (some 1) 7 = [] ∧
      calculate_total_owed c10Store (some 1) 7 = (0, 0, 0) :=
  ⟨by decide, c10_amended c10Store (some 1) 7 (by decide)⟩

/-! ### Claim C3 -/

theorem calculate_total_owed_nil (s : Store) (uid : Option Nat) (i : Nat)
    (h : get_table_data_loans s uid i = []) :
    calculate_total_owed s uid i = (0, 0, 0) := by
  unfold calculate_total_owed
  rw [h]

theorem calculate_total_owed_spec (s : Store) (u : Nat) (i : Nat)
    (row : Loan) (rest : List Loan)
    (hread : get_table_data_loans s (some u) i = row :: rest) :
    calculate_total_owed s (some u) i =
      (row.current_principal + specUnpaidSum s i, row.current_principal,
        specUnpaidSum s i) := by
  unfold calculate_total_owed
  rw [hread]
  have hrows : (unpaidRows s i).filter (fun e => decide ((0 : Int) < e.interest_amount)) =
      s.entries.filter (fun e => e.loan_id == i && e.is_paid == false &&
        decide ((0 : Int) < e.interest_amount)) := by
    unfold unpaidRows
    exact filterFilterB _ _ _
  simp only [round2, hrows, foldlAddInterest, zero_add, specUnpaidSum]

/-- C3: the per-loan body of update_loan_statuses (statusFor) computes
total_owed via calculate_total_owed as current_principal plus the sum of
interest_amount over unpaid interest entries (is_paid false, amount positive),
and assigns Paid when total_owed is at most 0, Overdue when total_owed is
positive and today is strictly after the current due date, and Partial when
total_owed is positive and today is on or before the due date. -/
theorem c3_status_resolver (s : Store) (u : Nat) (today : CalDate) (loan row : Loan)
    (rest : List Loan) (dd : CalDate)
    (hread : get_table_data_loans s (some u) loan.id = row :: rest)
    (hdd : loan.current_due_date = some dd) :
    (calculate_total_owed s (some u) loan.id).1 =
        row.current_principal + specUnpaidSum s loan.id ∧
      statusFor s (some u) today loan =
        (if row.current_principal + specUnpaidSum s loan.id ≤ 0 then "Paid"
         else if dateLt dd today = true then "Overdue" else "Partial") := by
  have hcalc := calculate_total_owed_spec s u loan.id row rest hread
  constructor
  · rw [hcalc]
  · unfold statusFor
    rw [hcalc, hdd]

/-- The caller-owned loan of the C3 witness store. -/
def c3Loan : Loan :=
  { id := 1, user_id := 1, client_id := 1, loan_date := ⟨2025, 10, 10⟩,
    original_principal := 50000, current_principal := 50000,
    original_due_date := some ⟨2025, 11, 10⟩,
    current_due_date := some ⟨2026, 1, 10⟩, status := "Overdue" }

/-- Concrete store for the C3 witness: caller-owned loan with principal 500.00
and two unpaid interest entries of 200.00 each, due date in the past. -/
def c3Store : Store :=
  { loans := [c3Loan],
    entries := [{ id := 1, loan_id := 1, user_id := some 1, due_date := ⟨2025, 11, 10⟩,
                  interest_amount := 20000, principal_at_time := 50000,
                  added_date := ⟨2026, 1, 3⟩, is_paid := false },
                { id := 2, loan_id := 1, user_id := some 1, due_date := ⟨2025, 12, 10⟩,
                  interest_amount := 20000, principal_at_time := 50000,
                  added_date := ⟨2026, 1, 3⟩, is_paid := false }],
    payments := [], nextEntryId := 3 }

/-- C3 witness: the theorem applied to the concrete store; total owed is
900.00 and the resolver yields Overdue for a past due date. -/
theorem c3_witness :
    get_table_data_loans c3Store (some 1) c3Loan.id = [c3Loan] ∧
      c3Loan.current_due_date = some ⟨2026, 1, 10⟩ ∧
      (calculate_total_owed c3Store (some 1) c3Loan.id).1 = 90000 ∧
      statusFor c3Store (some 1) ⟨2026, 2, 3⟩ c3Loan = "Overdue" := by
  refine ⟨by decide, by decide, ?_, ?_⟩
  · have h := c3_status_resolver c3Store 1 ⟨2026, 2, 3⟩ c3Loan c3Loan []
      ⟨2026, 1, 10⟩ (by decide) (by decide)
    rw [h.1]
    decide
  · have h := c3_status_resolver c3Store 1 ⟨2026, 2, 3⟩ c3Loan c3Loan []
      ⟨2026, 1, 10⟩ (by decide) (by decide)
    rw [h.2]
    decide

/-! ### Claim C6 -/

/-- Store for the C6 counterexample: one non-Paid loan whose due date lies far
in the future. -/
def c6Store : Store :=
  { loans := [{ id := 1, user_id := 1, client_id := 1, loan_date := ⟨2025, 1, 1⟩,
                original_principal := 10000, current_principal := 10000,
                original_due_date := some ⟨2030, 1, 15⟩,
                current_due_date := some ⟨2030, 1, 15⟩, status := "Partial" }],
    entries := [], payments := [], nextEntryId := 0 }

/-- C6 counterexample: the loan has a future due date (the walk advances zero
steps; the due date is left unchanged), yet the accrual pass still writes
status Overdue, contradicting the claim that a loan whose current_due_date is
not in the past is not marked Overdue by accrual. -/
theorem c6_counterexample :
    dateLt ⟨2030, 1, 15⟩ ⟨2026, 2, 3⟩ = false ∧
    c6Store.loans.map (fun l => (l.id, l.status)) = [(1, "Partial")] ∧
    (check_and_add_overdue_interest c6Store ⟨2026, 2, 3⟩).loans.map
        (fun l => (l.id, l.status, l.current_due_date)) =
      [(1, "Overdue", some ⟨2030, 1, 15⟩)] := by
  decide

/-- C6 (amended): after the accrual pass, every non-Paid loan with a due date
has its current_due_date persisted as the final working due date of the walk
(walkFinal) and its status written as Overdue unconditionally, even when the
walk advanced zero steps: when the starting due date is not before today,
walkFinal leaves it unchanged and the loan is nevertheless marked Overdue. -/
theorem c6_amended (s : Store) (today : CalDate) (l : Loan)
    (hN : (s.loans.map Loan.id).Nodup) (hl : l ∈ s.loans)
    (hst : l.status ≠ "Paid") (d : CalDate) (hd : l.current_due_date = some d) :
    ({ l with current_due_date := some (walkFinal today d), status := "Overdue" } : Loan) ∈
        (check_and_add_overdue_interest s today).loans ∧
      (dateLt d today = false → walkFinal today d = d) := by
  constructor
  · rw [accrual_loans_char s today hN]
    refine List.mem_map.mpr ⟨l, hl, ?_⟩
    simp [charAc, beq_eq_false_iff_ne.mpr hst, hd]
  · intro h
    exact walkFinal_stop today d h

/-- The loan of the C6 witness store: three months overdue. -/
def c6wLoan : Loan :=
  { id := 1, user_id := 1, client_id := 1, loan_date := ⟨2025, 10, 10⟩,
    original_principal := 50000, current_principal := 50000,
    original_due_date := some ⟨2025, 11, 10⟩,
    current_due_date := some ⟨2025, 11, 10⟩, status := "Partial" }

/-- Store for the C6 witness. -/
def c6wStore : Store :=
  { loans := [c6wLoan], entries := [], payments := [], nextEntryId := 0 }

/-- C6 witness: the amended theorem applied to a loan three months past due;
the persisted due date is the walk result 2026-02-10 and the status Overdue. -/
theorem c6_witness :
    (c6wStore.loans.map Loan.id).Nodup ∧ c6wLoan ∈ c6wStore.loans ∧
      c6wLoan.status ≠ "Paid" ∧ c6wLoan.current_due_date = some ⟨2025, 11, 10⟩ ∧
      ({ c6wLoan with
          current_due_date := some (walkFinal ⟨2026, 2, 3⟩ ⟨2025, 11, 10⟩),
          status := "Overdue" } : Loan) ∈
        (check_and_add_overdue_interest c6wStore ⟨2026, 2, 3⟩).loans ∧
      walkFinal ⟨2026, 2, 3⟩ ⟨2025, 11, 10⟩ = ⟨2026, 2, 10⟩ :=
  ⟨by decide, by decide, by decide, by decide,
    (c6_amended c6wStore ⟨2026, 2, 3⟩ c6wLoan (by decide) (by decide) (by decide)
      ⟨2025, 11, 10⟩ (by decide)).1,
    by decide⟩

/-! ### Claim C5 -/

/-- C5: running the accrual pass twice in succession on the same day is
idempotent: the second run of check_and_add_overdue_interest leaves the store
(its InterestEntry rows, its loans and their statuses, and the id counter)
exactly as after the first run, because every existence check by
(loan, due_date) finds the rows created by the first run and every walk
starts at a due date no longer before today.  Hypotheses: loan ids are
distinct (primary keys) and the month fields of today and of the stored due
dates are well-formed (1 to 12). -/
theorem c5_accrual_idempotent (s : Store) (today : CalDate)
    (hN : (s.loans.map Loan.id).Nodup) (hw : WfMonth today)
    (hD : ∀ l ∈ s.loans, ∀ d, l.current_due_date = some d → WfMonth d) :
    check_and_add_overdue_interest (check_and_add_overdue_interest s today) today =
      check_and_add_overdue_interest s today := by
  set s1 : Store := check_and_add_overdue_interest s today with hs1
  have hN1 : (s1.loans.map Loan.id).Nodup := by
    rw [hs1, accrual_loans_char s today hN, List.map_map]
    have hcomp : (Loan.id ∘ charAc today) = Loan.id := funext (fun y => charAc_id today y)
    rw [hcomp]
    exact hN
  have hJ := accrual_result_nonpaid s today hN hw hD
  show (s1.loans.filter (fun l => !(l.status == "Paid"))).foldl (accrueLoan today) s1 = s1
  refine foldlFix _ _ _ ?_
  intro l2 hl2
  have hmem : l2 ∈ s1.loans := (List.mem_filter.mp hl2).1
  have hnp : l2.status ≠ "Paid" := by
    have h := (List.mem_filter.mp hl2).2
    simpa using h
  rcases hJ l2 hmem hnp with hnone | ⟨d, hdd, hstop, hov⟩
  · simp [accrueLoan, hnone]
  · simp only [accrueLoan, hdd]
    rw [accrueWalkGo_stop today l2.id l2.current_principal d hstop]
    refine setLoanDueStatus_fix s1 l2.id (some d) "Overdue" ?_
    intro l hl hid
    have heq : l = l2 := uniqueId hN1 hl hmem hid
    subst heq
    exact ⟨hdd, hov⟩

/-- The loan of the C5 witness store: three months overdue, so the first run
creates three interest entries. -/
def c5Loan : Loan :=
  { id := 1, user_id := 1, client_id := 1, loan_date := ⟨2025, 10, 10⟩,
    original_principal := 50000, current_principal := 50000,
    original_due_date := some ⟨2025, 11, 10⟩,
    current_due_date := some ⟨2025, 11, 10⟩, status := "Partial" }

/-- Store for the C5 witness. -/
def c5Store : Store :=
  { loans := [c5Loan], entries := [], payments := [], nextEntryId := 0 }

/-- C5 witness: the idempotence theorem applied to the concrete store; the
first pass materializes entries for 2025-11-10, 2025-12-10 and 2026-01-10 and
the second pass changes nothing. -/
theorem c5_witness :
    ((c5Store.loans.map Loan.id).Nodup ∧ WfMonth ⟨2026, 2, 3⟩ ∧
      ((check_and_add_overdue_interest c5Store ⟨2026, 2, 3⟩).entries.map
        (fun e => e.due_date)) =
          [⟨2025, 11, 10⟩, ⟨2025, 12, 10⟩, ⟨2026, 1, 10⟩]) ∧
    check_and_add_overdue_interest (check_and_add_overdue_interest c5Store ⟨2026, 2, 3⟩)
        ⟨2026, 2, 3⟩ = check_and_add_overdue_interest c5Store ⟨2026, 2, 3⟩ :=
  ⟨⟨by decide, by decide, by decide⟩,
    c5_accrual_idempotent c5Store ⟨2026, 2, 3⟩ (by decide) (by decide)
      (by
        intro l hl d hd
        have hl2 : l = c5Loan := by simpa [c5Store] using hl
        subst hl2
        have h2 : some (⟨2025, 11, 10⟩ : CalDate) = some d := hd
        injection h2 with h3
        subst h3
        decide)⟩

/-! ### Claim C2 -/

theorem dateLe_false_of_lt (a b : CalDate) (h : dateLt a b = true) :
    dateLe b a = false := by
  simp [dateLe, h]

theorem sort_two (e1 e2 : InterestEntry) (h : dateLt e1.due_date e2.due_date = true) :
    sortByDueDate [e2, e1] = [e1, e2] := by
  unfold sortByDueDate
  simp only [List.foldr_cons, List.foldr_nil]
  show insertByDueDate e2 [e1] = [e1, e2]
  unfold insertByDueDate
  rw [dateLe_false_of_lt e1.due_date e2.due_date h]
  simp [insertByDueDate]

/-- C2: waterfall order.  For a loan whose unpaid interest fetch returns
exactly the entries e2 and e1 - stored in descending due-date order, with the
due date of e1 strictly before that of e2 - a payment of A1 + 0.5 A2 (with A1
the amount of e1 and A2 = 2B the amount of e2) fully settles e1 (is_paid
becomes true), reduces the amount of e2 to exactly B = 0.5 A2 while its
is_paid flag stays false, and records applied_to_principal = 0 and
applied_to_interest equal to the full payment: the allocator consumes unpaid
entries in ascending due-date order, interest before principal. -/
theorem c2_waterfall (s : Store) (u i : Nat) (dt : CalDate) (loan : Loan)
    (rest : List Loan) (e1 e2 : InterestEntry) (B : Int)
    (hL : s.loans.filter (fun l => l.id == i && l.user_id == u) = loan :: rest)
    (hF : s.entries.filter (paymentFetchPred u i) = [e2, e1])
    (hlt : dateLt e1.due_date e2.due_date = true)
    (hA2 : e2.interest_amount = 2 * B)
    (hB : 0 < B)
    (hne : e1.id ≠ e2.id) :
    ({ e1 with is_paid := true } : InterestEntry) ∈
        (process_payment s (some u) i (e1.interest_amount + B) dt).1.entries ∧
      ({ e2 with interest_amount := B } : InterestEntry) ∈
        (process_payment s (some u) i (e1.interest_amount + B) dt).1.entries ∧
      e2.is_paid = false ∧
      ∃ p : Payment,
        (process_payment s (some u) i (e1.interest_amount + B) dt).1.payments =
            s.payments ++ [p] ∧
          p.applied_to_principal = 0 ∧
          p.applied_to_interest = e1.interest_amount + B := by
  have he1f : e1 ∈ s.entries.filter (paymentFetchPred u i) := by
    rw [hF]
    simp
  have he2f : e2 ∈ s.entries.filter (paymentFetchPred u i) := by
    rw [hF]
    simp
  have he1 : e1 ∈ s.entries := (List.mem_filter.mp he1f).1
  have hp1 : paymentFetchPred u i e1 = true := (List.mem_filter.mp he1f).2
  have hp2 : paymentFetchPred u i e2 = true := (List.mem_filter.mp he2f).2
  simp only [paymentFetchPred, Bool.and_eq_true, beq_iff_eq,
    decide_eq_true_eq] at hp1 hp2
  have hA1 : (0 : Int) < e1.interest_amount := hp1.2
  have hu1 : e1.user_id = some u := hp1.1.1.2
  have hu2 : e2.user_id = some u := hp2.1.1.2
  have hpaid2 : e2.is_paid = false := hp2.1.2
  have hsort : sortByDueDate (s.entries.filter (paymentFetchPred u i)) = [e1, e2] := by
    rw [hF]
    exact sort_two e1 e2 hlt
  have h1 : ¬(e1.interest_amount + B ≤ 0) := by omega
  have h2 : e1.interest_amount ≤ e1.interest_amount + B := by omega
  have hsub : e1.interest_amount + B - e1.interest_amount = B := by ring
  have h3 : ¬(B ≤ 0) := by omega
  have h4 : ¬(2 * B ≤ B) := by omega
  have hsub2 : 2 * B - B = B := by ring
  have h5 : ¬((0 : Int) < 0) := lt_irrefl 0
  simp only [process_payment, hL, hsort, round2, payInterestLoop, hA2, hsub, hsub2,
    zero_add, if_neg h1, if_pos h2, if_neg h3, if_neg h4, if_neg h5]
  refine ⟨?_, ?_, hpaid2, ?_⟩
  · exact List.mem_map.mpr ⟨{ e1 with is_paid := true },
      List.mem_map.mpr ⟨e1, he1, by
        rw [if_pos (show (e1.id == e1.id && e1.user_id == some u) = true by
          simp [hu1])]⟩,
      by
        rw [if_neg (show ¬(({ e1 with is_paid := true } : InterestEntry).id == e2.id &&
            ({ e1 with is_paid := true } : InterestEntry).user_id == some u) = true by
          simp [hne])]⟩
  · exact List.mem_map.mpr ⟨e2,
      List.mem_map.mpr ⟨e2, (List.mem_filter.mp he2f).1, by
        rw [if_neg (show ¬(e2.id == e1.id && e2.user_id == some u) = true by
          simp [Ne.symm hne])]⟩,
      by
        rw [if_pos (show (e2.id == e2.id && e2.user_id == some u) = true by
          simp [hu2])]⟩
  · exact ⟨
      { loan_id := i, user_id := some u, amount := e1.interest_amount + B,
        payment_date := dt, applied_to_interest := e1.interest_amount + B,
        applied_to_principal := 0, remaining_amount := 0 }, rfl, rfl, rfl⟩

/-- The two unpaid entries of the C2 witness store, stored in descending
due-date order (the later one first). -/
def c2e2 : InterestEntry :=
  { id := 7, loan_id := 1, user_id := some 1, due_date := ⟨2025, 3, 10⟩,
    interest_amount := 20000, principal_at_time := 50000,
    added_date := ⟨2025, 3, 10⟩, is_paid := false }

/-- The older unpaid entry of the C2 witness store. -/
def c2e1 : InterestEntry :=
  { id := 6, loan_id := 1, user_id := some 1, due_date := ⟨2025, 2, 10⟩,
    interest_amount := 20000, principal_at_time := 50000,
    added_date := ⟨2025, 2, 10⟩, is_paid := false }

/-- The loan of the C2 witness store. -/
def c2Loan : Loan :=
  { id := 1, user_id := 1, client_id := 1, loan_date := ⟨2025, 1, 1⟩,
    original_principal := 50000, current_principal := 50000,
    original_due_date := some ⟨2025, 2, 10⟩,
    current_due_date := some ⟨2025, 4, 10⟩, status := "Overdue" }

/-- Store for the C2 witness: spec example, two unpaid 200.00 entries. -/
def c2Store : Store :=
  { loans := [c2Loan], entries := [c2e2, c2e1], payments := [], nextEntryId := 10 }

/-- C2 witness: paying 300.00 = 200.00 + half of 200.00 against the two
entries settles the older entry, halves the newer one and sends nothing to
principal. -/
theorem c2_witness :
    (c2Store.entries.filter (paymentFetchPred 1 1) = [c2e2, c2e1] ∧
      dateLt c2e1.due_date c2e2.due_date = true ∧
      c2e2.interest_amount = 2 * 10000 ∧ ((0 : Int) < 10000) ∧ c2e1.id ≠ c2e2.id) ∧
    (({ c2e1 with is_paid := true } : InterestEntry) ∈
        (process_payment c2Store (some 1) 1 (c2e1.interest_amount + 10000)
          ⟨2025, 4, 12⟩).1.entries ∧
      ({ c2e2 with interest_amount := 10000 } : InterestEntry) ∈
        (process_payment c2Store (some 1) 1 (c2e1.interest_amount + 10000)
          ⟨2025, 4, 12⟩).1.entries ∧
      c2e2.is_paid = false ∧
      ∃ p : Payment,
        (process_payment c2Store (some 1) 1 (c2e1.interest_amount + 10000)
            ⟨2025, 4, 12⟩).1.payments = c2Store.payments ++ [p] ∧
          p.applied_to_principal = 0 ∧
          p.applied_to_interest = c2e1.interest_amount + 10000) :=
  ⟨⟨by decide, by decide, by decide, by decide, by decide⟩,
    c2_waterfall c2Store 1 1 ⟨2025, 4, 12⟩ c2Loan [] c2e1 c2e2 10000
      (by decide) (by decide) (by decide) (by decide) (by decide) (by decide)⟩

/-! ### Claim C9 -/

/-- The loan owned by user 2 in the C9 stores. -/
def c9Loan2 : Loan :=
  { id := 2, user_id := 2, client_id := 2, loan_date := ⟨2025, 1, 1⟩,
    original_principal := 20000, current_principal := 20000,
    original_due_date := some ⟨2030, 1, 15⟩,
    current_due_date := some ⟨2030, 1, 15⟩, status := "Partial" }

/-- Store with loans of two distinct owners, user 1 and user 2. -/
def c9Store : Store :=
  { loans := [{ id := 1, user_id := 1, client_id := 1, loan_date := ⟨2025, 1, 1⟩,
                original_principal := 10000, current_principal := 10000,
                original_due_date := some ⟨2030, 1, 15⟩,
                current_due_date := some ⟨2030, 1, 15⟩, status := "Partial" },
              c9Loan2],
    entries := [{ id := 5, loan_id := 2, user_id := some 2, due_date := ⟨2030, 1, 15⟩,
                  interest_amount := 8000, principal_at_time := 20000,
                  added_date := ⟨2025, 1, 1⟩, is_paid := false }],
    payments := [], nextEntryId := 10 }

/-- C9 counterexample: running the batch status refresh as user 1 modifies the
rows of user 2 (its loan, carrying a positive balance, is rewritten to Paid),
so the storage operations of the refresh are not scoped to the calling owner
and the rows of the other owner are not left as if it had not run. -/
theorem c9_counterexample :
    ((update_loan_statuses c9Store (some 1) ⟨2026, 2, 3⟩).loans.filter
        (fun l => l.user_id == 2)) ≠
      c9Store.loans.filter (fun l => l.user_id == 2) ∧
    (update_loan_statuses c9Store (some 1) ⟨2026, 2, 3⟩).loans.map
        (fun l => (l.id, l.user_id, l.status)) = [(1, 1, "Partial"), (2, 2, "Paid")] := by
  decide

/-- C9 (amended): the accrual pass and the batch status refresh issue
owner-unscoped reads and writes.  Running update_loan_statuses as caller u
rewrites every loan row belonging to any other owner v: since the scoped
calculate_total_owed cannot read a foreign row it returns the zero default,
and the unscoped status write then marks the loan of that owner Paid, whatever its
balance. -/
theorem c9_amended (s : Store) (today : CalDate) (u v : Nat) (row : Loan)
    (hN : (s.loans.map Loan.id).Nodup) (hrow : row ∈ s.loans)
    (hv : row.user_id = v) (hne : v ≠ u) :
    ∃ r ∈ (update_loan_statuses s (some u) today).loans,
      r.id = row.id ∧ r.user_id = v ∧ r.status = "Paid" := by
  have hN1 : ((check_and_add_overdue_interest s today).loans.map Loan.id).Nodup := by
    rw [accrual_loans_char s today hN, List.map_map]
    have hcomp : (Loan.id ∘ charAc today) = Loan.id := funext (fun y => charAc_id today y)
    rw [hcomp]
    exact hN
  have hy0 : charAc today row ∈ (check_and_add_overdue_interest s today).loans := by
    rw [accrual_loans_char s today hN]
    exact List.mem_map_of_mem _ hrow
  have hempty : get_table_data_loans (check_and_add_overdue_interest s today) (some u)
      (charAc today row).id = [] := by
    show (check_and_add_overdue_interest s today).loans.filter _ = []
    rw [accrual_loans_char s today hN]
    rw [filterMapPred (charAc today) _ (fun a => by
      simp [charAc_user, charAc_id])]
    refine List.map_eq_nil_iff.mpr ?_
    refine List.filter_eq_nil_iff.mpr ?_
    intro a ha hpa
    simp only [Bool.and_eq_true, beq_iff_eq] at hpa
    have hid : a.id = row.id := by
      have := hpa.2
      rw [charAc_id] at this
      exact this
    have : a = row := uniqueId hN ha hrow hid
    subst this
    rw [hv] at hpa
    exact hne hpa.1
  have hstatus : statusFor (check_and_add_overdue_interest s today) (some u) today
      (charAc today row) = "Paid" := by
    unfold statusFor
    rw [calculate_total_owed_nil _ _ _ hempty]
    norm_num
  rw [update_loan_statuses_char s (some u) today hN1]
  refine ⟨{ charAc today row with
      status := statusFor (check_and_add_overdue_interest s today) (some u) today
        (charAc today row) }, ?_, ?_, ?_, ?_⟩
  · exact List.mem_map.mpr ⟨charAc today row, hy0, rfl⟩
  · show (charAc today row).id = row.id
    exact charAc_id today row
  · show (charAc today row).user_id = v
    rw [charAc_user]
    exact hv
  · show statusFor _ _ _ _ = "Paid"
    exact hstatus

/-! ### Claim C1 -/

/-- Store for the C1 counterexample: one caller-owned loan with principal
500.00 and no unpaid interest entries. -/
def c1Store : Store :=
  { loans := [{ id := 1, user_id := 1, client_id := 1, loan_date := ⟨2025, 1, 1⟩,
                original_principal := 50000, current_principal := 50000,
                original_due_date := some ⟨2025, 2, 1⟩,
                current_due_date := some ⟨2025, 2, 1⟩, status := "Partial" }],
    entries := [], payments := [], nextEntryId := 0 }

/-- C1 counterexample: paying 100.00 against c1Store (no unpaid interest, so
the whole amount goes to principal) persists a Payment record with
applied_to_interest 0, applied_to_principal 100.00 and remaining_amount
100.00 - not 0: the source never resets remaining_payment after applying it
to principal, so applied_to_interest + applied_to_principal + remaining_amount
is 200.00, different from the amount 100.00. -/
theorem c1_counterexample :
    (process_payment c1Store (some 1) 1 10000 ⟨2025, 3, 1⟩).1.payments =
        [{ loan_id := 1, user_id := some 1, amount := 10000,
           payment_date := ⟨2025, 3, 1⟩, applied_to_interest := 0,
           applied_to_principal := 10000, remaining_amount := 10000 }] ∧
      ((0 : Int) + 10000 + 10000 ≠ 10000) := by
  decide

/-- C1 (amended): for every successfully processed payment with positive
amount, the persisted Payment record satisfies applied_to_interest +
applied_to_principal = amount, and its recorded remaining_amount equals
applied_to_principal (not 0): the conservation equation of the claim holds
exactly when nothing reaches principal, and the recorded remaining_amount is
0 only in that case. -/
theorem c1_amended (s : Store) (u : Nat) (i : Nat) (amt : Int) (dt : CalDate)
    (loan : Loan) (rest : List Loan)
    (hL : s.loans.filter (fun l => l.id == i && l.user_id == u) = loan :: rest)
    (hamt : 0 < amt) :
    ∃ p : Payment,
      (process_payment s (some u) i amt dt).1.payments = s.payments ++ [p] ∧
      p.amount = amt ∧
      p.applied_to_interest + p.applied_to_principal = amt ∧
      p.remaining_amount = p.applied_to_principal ∧
      0 ≤ p.applied_to_principal := by
  simp only [process_payment, hL]
  set t := payInterestLoop u (sortByDueDate (s.entries.filter (paymentFetchPred u i)))
    s (round2 amt) 0 with ht
  have hcons : t.2.1 + t.2.2 = amt := by
    have := payInterestLoop_conserve u
      (sortByDueDate (s.entries.filter (paymentFetchPred u i))) s (round2 amt) 0
    rw [← ht] at this
    simpa [round2] using this
  have hnn : 0 ≤ t.2.1 := by
    have := payInterestLoop_nonneg u
      (sortByDueDate (s.entries.filter (paymentFetchPred u i))) s (round2 amt) 0
      (by simp [round2]; omega)
    rw [← ht] at this
    exact this
  refine ⟨{ loan_id := i, user_id := some u, amount := amt, payment_date := dt,
            applied_to_interest := t.2.2,
            applied_to_principal := if 0 < t.2.1 then t.2.1 else 0,
            remaining_amount := t.2.1 }, ?_, rfl, ?_, ?_, ?_⟩
  · show (if 0 < t.2.1 then
        setLoanPrincipal t.1 u i (max (round2 (loan.current_principal - t.2.1)) 0)
      else t.1).payments ++ _ = s.payments ++ _
    have hpay : (if 0 < t.2.1 then
        setLoanPrincipal t.1 u i (max (round2 (loan.current_principal - t.2.1)) 0)
      else t.1).payments = s.payments := by
      split
      · show t.1.payments = s.payments
        rw [ht]
        exact payInterestLoop_payments u _ s _ _
      · rw [ht]
        exact payInterestLoop_payments u _ s _ _
    rw [hpay]
  · show t.2.2 + (if 0 < t.2.1 then t.2.1 else 0) = amt
    split
    · omega
    · omega
  · show t.2.1 = (if 0 < t.2.1 then t.2.1 else 0)
    split
    · rfl
    · omega
  · show (0 : Int) ≤ (if 0 < t.2.1 then t.2.1 else 0)
    split
    · omega
    · omega

/-- Store for the C1 witness: one caller-owned loan with principal 500.00 and
one unpaid interest entry of 200.00. -/
def c1wStore : Store :=
  { loans := [{ id := 1, user_id := 1, client_id := 1, loan_date := ⟨2025, 1, 1⟩,
                original_principal := 50000, current_principal := 50000,
                original_due_date := some ⟨2025, 2, 1⟩,
                current_due_date := some ⟨2025, 2, 1⟩, status := "Partial" }],
    entries := [{ id := 1, loan_id := 1, user_id := some 1, due_date := ⟨2025, 2, 1⟩,
                  interest_amount := 20000, principal_at_time := 50000,
                  added_date := ⟨2025, 1, 1⟩, is_paid := false }],
    payments := [], nextEntryId := 2 }

/-- C1 witness: the amended theorem applied to a payment of 300.00 against
200.00 of unpaid interest. -/
theorem c1_witness :
    (c1wStore.loans.filter (fun l => l.id == 1 && l.user_id == 1) =
        c1wStore.loans.head?.toList ++ [] ∧ (0 : Int) < 30000) ∧
    (∃ p : Payment,
      (process_payment c1wStore (some 1) 1 30000 ⟨2025, 3, 1⟩).1.payments =
          c1wStore.payments ++ [p] ∧
        p.amount = 30000 ∧
        p.applied_to_interest + p.applied_to_principal = 30000 ∧
        p.remaining_amount = p.applied_to_principal ∧
        0 ≤ p.applied_to_principal) := by
  constructor
  · exact ⟨by decide, by decide⟩
  · exact c1_amended c1wStore 1 1 30000 ⟨2025, 3, 1⟩
      { id := 1, user_id := 1, client_id := 1, loan_date := ⟨2025, 1, 1⟩,
        original_principal := 50000, current_principal := 50000,
        original_due_date := some ⟨2025, 2, 1⟩,
        current_due_date := some ⟨2025, 2, 1⟩, status := "Partial" } []
      (by decide) (by decide)

/-! ### Claim C4 -/

theorem calc_statusScoped (s3 : Store) (u i : Nat) (st : String) (uid : Option Nat)
    (j : Nat) :
    calculate_total_owed (setLoanStatusScoped s3 u i st) uid j =
      calculate_total_owed s3 uid j := by
  refine calculate_total_owed_map s3
    (fun l => if l.id == i && l.user_id == u then { l with status := st } else l) ?_ uid j
  intro y
  cases hc : y.id == i && y.user_id == u <;> simp [hc]

theorem setLoanStatusScoped_mem (s3 : Store) (u i : Nat) (st : String)
    (hex : ∃ r ∈ s3.loans, (r.id == i && r.user_id == u) = true) :
    (∃ r ∈ (setLoanStatusScoped s3 u i st).loans, r.id = i ∧ r.user_id = u) ∧
    ∀ r ∈ (setLoanStatusScoped s3 u i st).loans, r.id = i → r.user_id = u →
      r.status = st := by
  obtain ⟨r0, hr0, hp0⟩ := hex
  have hp1 : r0.id = i ∧ r0.user_id = u := by
    simp only [Bool.and_eq_true, beq_iff_eq] at hp0
    exact hp0
  constructor
  · refine ⟨{ r0 with status := st }, ?_, hp1.1, hp1.2⟩
    refine List.mem_map.mpr ⟨r0, hr0, ?_⟩
    rw [if_pos hp0]
  · intro r hr hid huser
    obtain ⟨x, hx, rfl⟩ := List.mem_map.mp hr
    cases hc : x.id == i && x.user_id == u
    · exfalso
      simp only [hc, Bool.false_eq_true, if_false] at hid huser
      simp [hid, huser] at hc
    · simp only [hc, if_true]

theorem exists_pred_of_loans_eq {L : List Loan} (s2 : Store) (h : s2.loans = L)
    (p : Loan → Bool) (hx : ∃ r ∈ L, p r = true) : ∃ r ∈ s2.loans, p r = true := by
  rw [h]
  exact hx

theorem exists_pred_setLoanPrincipal (s1 : Store) (u i : Nat) (v : Int)
    (h : ∃ r ∈ s1.loans, (r.id == i && r.user_id == u) = true) :
    ∃ r ∈ (setLoanPrincipal s1 u i v).loans, (r.id == i && r.user_id == u) = true := by
  obtain ⟨r0, hr0, hp⟩ := h
  refine ⟨{ r0 with current_principal := v }, ?_, hp⟩
  refine List.mem_map.mpr ⟨r0, hr0, ?_⟩
  rw [if_pos hp]

/-- C4 counterexample: after paying 100.00 on a loan of 500.00 with no unpaid
interest, the recomputed total owed is 400.00, positive, and the payment path
does not leave the stored status alone: it writes the value Active, which is
outside the three-state model Partial, Overdue, Paid. -/
theorem c4_counterexample :
    (process_payment c1Store (some 1) 1 10000 ⟨2025, 3, 1⟩).1.loans.map
        (fun l => l.status) = ["Active"] ∧
      c1Store.loans.map (fun l => l.status) = ["Partial"] ∧
      ("Active" ≠ "Partial" ∧ "Active" ≠ "Overdue" ∧ ("Active" : String) ≠ "Paid") := by
  decide

/-- C4 (amended): after a successful process_payment, the status written to
the loan is Paid exactly when the recomputed total owed is at most 0, and
otherwise it is the value Active, a fourth status outside the three-state
model; the stored status is overwritten in both cases, not left for the
status resolver. -/
theorem c4_amended (s : Store) (u : Nat) (i : Nat) (amt : Int) (dt : CalDate)
    (loan : Loan) (rest : List Loan)
    (hL : s.loans.filter (fun l => l.id == i && l.user_id == u) = loan :: rest) :
    (process_payment s (some u) i amt dt).2 = true ∧
    (∃ r ∈ (process_payment s (some u) i amt dt).1.loans, r.id = i ∧ r.user_id = u) ∧
    ∀ r ∈ (process_payment s (some u) i amt dt).1.loans, r.id = i → r.user_id = u →
      r.status = (if (calculate_total_owed (process_payment s (some u) i amt dt).1
          (some u) i).1 ≤ 0 then "Paid" else "Active") := by
  have hmem : loan ∈ s.loans ∧ (loan.id == i && loan.user_id == u) = true := by
    have h1 : loan ∈ s.loans.filter (fun l => l.id == i && l.user_id == u) := by
      rw [hL]
      exact List.mem_cons_self _ _
    exact ⟨(List.mem_filter.mp h1).1, (List.mem_filter.mp h1).2⟩
  simp only [process_payment, hL]
  rw [calc_statusScoped]
  refine ⟨by trivial, ?_⟩
  refine setLoanStatusScoped_mem _ u i _ ?_
  split
  · refine exists_pred_setLoanPrincipal _ u i _ ?_
    exact exists_pred_of_loans_eq _ (payInterestLoop_loans u _ s _ _) _
      ⟨loan, hmem.1, hmem.2⟩
  · exact exists_pred_of_loans_eq _ (payInterestLoop_loans u _ s _ _) _
      ⟨loan, hmem.1, hmem.2⟩

/-- C4 witness: the amended theorem applied to c1Store and a payment of
100.00; the written status is Active since 400.00 remains owed. -/
theorem c4_witness :
    (c1Store.loans.filter (fun l => l.id == 1 && l.user_id == 1) =
        [{ id := 1, user_id := 1, client_id := 1, loan_date := ⟨2025, 1, 1⟩,
           original_principal := 50000, current_principal := 50000,
           original_due_date := some ⟨2025, 2, 1⟩,
           current_due_date := some ⟨2025, 2, 1⟩, status := "Partial" }]) ∧
    ((process_payment c1Store (some 1) 1 10000 ⟨2025, 3, 1⟩).2 = true ∧
      (∃ r ∈ (process_payment c1Store (some 1) 1 10000 ⟨2025, 3, 1⟩).1.loans,
        r.id = 1 ∧ r.user_id = 1) ∧
      ∀ r ∈ (process_payment c1Store (some 1) 1 10000 ⟨2025, 3, 1⟩).1.loans,
        r.id = 1 → r.user_id = 1 →
        r.status = (if (calculate_total_owed
            (process_payment c1Store (some 1) 1 10000 ⟨2025, 3, 1⟩).1
            (some 1) 1).1 ≤ 0 then "Paid" else "Active")) :=
  ⟨by decide,
    c4_amended c1Store 1 1 10000 ⟨2025, 3, 1⟩
      { id := 1, user_id := 1, client_id := 1, loan_date := ⟨2025, 1, 1⟩,
        original_principal := 50000, current_principal := 50000,
        original_due_date := some ⟨2025, 2, 1⟩,
        current_due_date := some ⟨2025, 2, 1⟩, status := "Partial" } []
      (by decide)⟩

/-! ### Claim C7 -/

theorem statusScoped_nonneg (s : Store) (u i : Nat) (st : String)
    (h : ∀ l ∈ s.loans, 0 ≤ l.current_principal) :
    ∀ l ∈ (setLoanStatusScoped s u i st).loans, 0 ≤ l.current_principal := by
  intro l hl
  obtain ⟨x, hx, rfl⟩ := List.mem_map.mp hl
  cases hc : x.id == i && x.user_id == u
  · simp only [hc, Bool.false_eq_true, if_false]
    exact h x hx
  · simp only [hc, if_true]
    exact h x hx

theorem principalSet_nonneg (s : Store) (u i : Nat) (v : Int) (hv : 0 ≤ v)
    (h : ∀ l ∈ s.loans, 0 ≤ l.current_principal) :
    ∀ l ∈ (setLoanPrincipal s u i v).loans, 0 ≤ l.current_principal := by
  intro l hl
  obtain ⟨x, hx, rfl⟩ := List.mem_map.mp hl
  cases hc : x.id == i && x.user_id == u
  · simp only [hc, Bool.false_eq_true, if_false]
    exact h x hx
  · simp only [hc, if_true]
    exact hv

/-- C7: current_principal stays non-negative through ApplyPayment: for every
store whose loan rows all carry a non-negative current_principal and for every
payment (any caller, loan id, amount - also amounts exceeding the total owed),
every loan row of the store produced by process_payment still has
current_principal non-negative, because the principal write is
max(round(current_principal - remaining, 2), 0). -/
theorem c7_principal_floor (s : Store) (uid : Option Nat) (i : Nat) (amt : Int)
    (dt : CalDate) (h0 : ∀ l ∈ s.loans, 0 ≤ l.current_principal) :
    ∀ l ∈ (process_payment s uid i amt dt).1.loans, 0 ≤ l.current_principal := by
  cases uid with
  | none => exact h0
  | some u =>
    cases hf : s.loans.filter (fun l => l.id == i && l.user_id == u) with
    | nil =>
      simp only [process_payment, hf]
      exact h0
    | cons loan rest =>
      simp only [process_payment, hf]
      refine statusScoped_nonneg _ u i _ ?_
      split
      · refine principalSet_nonneg _ u i _ (le_max_right _ _) ?_
        intro l hl
        rw [payInterestLoop_loans] at hl
        exact h0 l hl
      · intro l hl
        rw [payInterestLoop_loans] at hl
        exact h0 l hl

/-- Store for the C7 witness: one loan with principal 500.00. -/
def c7Store : Store :=
  { loans := [{ id := 1, user_id := 1, client_id := 1, loan_date := ⟨2025, 1, 1⟩,
                original_principal := 50000, current_principal := 50000,
                original_due_date := some ⟨2025, 2, 1⟩,
                current_due_date := some ⟨2025, 2, 1⟩, status := "Partial" }],
    entries := [], payments := [], nextEntryId := 0 }

/-- C7 witness: an over-payment of 999.99 against a principal of 500.00 with
no unpaid interest leaves every persisted current_principal non-negative. -/
theorem c7_witness :
    (∀ l ∈ c7Store.loans, 0 ≤ l.current_principal) ∧
      (∀ l ∈ (process_payment c7Store (some 1) 1 99999 ⟨2025, 3, 1⟩).1.loans,
        0 ≤ l.current_principal) ∧
      (process_payment c7Store (some 1) 1 99999 ⟨2025, 3, 1⟩).1.loans.map
        (fun l => l.current_principal) = [0] :=
  ⟨by decide, c7_principal_floor c7Store (some 1) 1 99999 ⟨2025, 3, 1⟩ (by decide),
    by decide⟩

/-- C9 witness: the amended theorem applied to the concrete two-owner store:
the refresh run as user 1 marks the loan of user 2 Paid. -/
theorem c9_witness :
    ((c9Store.loans.map Loan.id).Nodup ∧ c9Loan2 ∈ c9Store.loans ∧
      c9Loan2.user_id = 2 ∧ (2 : Nat) ≠ 1) ∧
    (∃ r ∈ (update_loan_statuses c9Store (some 1) ⟨2026, 2, 3⟩).loans,
      r.id = c9Loan2.id ∧ r.user_id = 2 ∧ r.status = "Paid") :=
  ⟨⟨by decide, by decide, by decide, by decide⟩,
    c9_amended c9Store ⟨2026, 2, 3⟩ 1 2 c9Loan2 (by decide) (by decide)
      (by decide) (by decide)⟩

end LoanSys
